import Mathlib

/-!
Shallow embedding of the puzzle rule-engine of `src/game.js`
(classes `Character`, `GameState`, `BridgeController`).

JavaScript objects are modelled as Lean structures; in-place mutation is
modelled as explicit state passing.  The characters handed to
`BridgeController` methods are references into `gameState.characters`, so a
proposed move is modelled as a list of indices into that array.  JS numbers
occurring in the engine (timer, crossing times) are modelled as rationals.
UI-only fields (`spriteKey` is kept; `sprite`, `position` hold rendering
objects and never influence the engine) and the wall-clock `timestamp`
written by `recordMove` (`Date.now()`) are not modelled; no claim mentions
them.
-/

namespace BridgeGame

/-- Side of the bridge: the JS code uses the strings 'left' and 'right'. -/
inductive Side where
  | left
  | right
deriving DecidableEq, Inhabited

/-- Render a side the way the JS string literals spell it. -/
def Side.str : Side → String
  | .left => "left"
  | .right => "right"

/-- Game status: the JS code uses the strings 'playing', 'won', 'lost'. -/
inductive GameStatus where
  | playing
  | won
  | lost
deriving DecidableEq, Inhabited

/-- Character class of `src/game.js` (engine-relevant fields). -/
structure Character where
  name : String
  crossingTime : ℚ
  side : Side
  spriteKey : Option String
  selected : Bool
deriving DecidableEq, Inhabited

/-- Character constructor: `new Character(name, crossingTime, spriteKey)`
sets `side = 'left'` and `selected = false`. -/
def mkCharacter (name : String) (crossingTime : ℚ) (spriteKey : Option String) : Character :=
  { name := name, crossingTime := crossingTime, side := Side.left,
    spriteKey := spriteKey, selected := false }

/-- Character.moveTo: sets `side` (the JS guard `side === 'left' || side === 'right'`
always holds for values of the closed `Side` type). -/
def Character.moveTo (c : Character) (s : Side) : Character :=
  { c with side := s }

/-- Character.isOnSide. -/
def Character.isOnSide (c : Character) (s : Side) : Bool :=
  decide (c.side = s)

/-- Character.toggleSelection. -/
def Character.toggleSelection (c : Character) : Character :=
  { c with selected := !c.selected }

/-- One entry of `moveHistory` pushed by `GameState.recordMove` (the
wall-clock `timestamp: Date.now()` field is not modelled). -/
structure MoveRecord where
  characters : List String
  timeUsed : ℚ
  fromSide : Side
  toSide : Side
deriving DecidableEq, Inhabited

/-- GameState class of `src/game.js`. -/
structure GameState where
  timeRemaining : ℚ
  lanternSide : Side
  gameStatus : GameStatus
  moveHistory : List MoveRecord
  characters : List Character
deriving DecidableEq, Inhabited

/-- GameState.initializeCharacters: the four fixed characters. -/
def initializeCharacters : List Character :=
  [ mkCharacter "You" 1 (some "player"),
    mkCharacter "Lab Assistant" 2 (some "assistant"),
    mkCharacter "Janitor" 5 (some "janitor"),
    mkCharacter "Professor" 10 (some "professor") ]

/-- The GameState constructor. -/
def initialState : GameState :=
  { timeRemaining := 17, lanternSide := Side.left, gameStatus := GameStatus.playing,
    moveHistory := [], characters := initializeCharacters }

/-- GameState.getCharactersOnSide. -/
def GameState.getCharactersOnSide (gs : GameState) (s : Side) : List Character :=
  gs.characters.filter (fun c => c.isOnSide s)

/-- GameState.getSelectedCharacters. -/
def GameState.getSelectedCharacters (gs : GameState) : List Character :=
  gs.characters.filter (fun c => c.selected)

/-- GameState.checkVictoryCondition: sets `gameStatus = 'won'` and returns
`true` when every character is on the right side; the new state is paired
with the returned boolean. -/
def GameState.checkVictoryCondition (gs : GameState) : GameState × Bool :=
  if (gs.getCharactersOnSide Side.right).length = gs.characters.length then
    ({ gs with gameStatus := GameStatus.won }, true)
  else
    (gs, false)

/-- GameState.updateTimer: subtracts `timeUsed`; on a result `<= 0` clamps
the timer to 0 and sets `gameStatus = 'lost'`; then calls
`checkVictoryCondition()`. -/
def GameState.updateTimer (gs : GameState) (timeUsed : ℚ) : GameState :=
  let t := gs.timeRemaining - timeUsed
  let gs1 :=
    if t ≤ 0 then
      { gs with timeRemaining := 0, gameStatus := GameStatus.lost }
    else
      { gs with timeRemaining := t }
  gs1.checkVictoryCondition.1

/-- GameState.moveLantern (the side guard always holds for `Side`). -/
def GameState.moveLantern (gs : GameState) (s : Side) : GameState :=
  { gs with lanternSide := s }

/-- GameState.recordMove: pushes one record onto `moveHistory`. -/
def GameState.recordMove (gs : GameState) (chars : List Character) (timeUsed : ℚ)
    (fromSide toSide : Side) : GameState :=
  { gs with moveHistory := gs.moveHistory ++
      [{ characters := chars.map (fun c => c.name), timeUsed := timeUsed,
         fromSide := fromSide, toSide := toSide }] }

/-- GameState.reset: restores the initial scalar fields and mutates each
existing character in place to `side = 'left'`, `selected = false`. -/
def GameState.reset (gs : GameState) : GameState :=
  { timeRemaining := 17, lanternSide := Side.left, gameStatus := GameStatus.playing,
    moveHistory := [],
    characters := gs.characters.map (fun c =>
      { c with side := Side.left, selected := false }) }

/-- Validation error messages used by BridgeController. -/
def msgNoCharacters : String := "No characters selected for crossing"

/-- Capacity violation message. -/
def msgMaxTwo : String := "Maximum 2 characters can cross together"

/-- Same-side violation message. -/
def msgSameSide : String := "All selected characters must be on the same side"

/-- Empty-selection message of `validateLanternMovement`. -/
def msgNoLanternCarrier : String := "No characters selected to carry the lantern"

/-- Lantern/characters side mismatch message (a template string in the JS). -/
def msgLanternMismatch (lantern charSide : Side) : String :=
  "Lantern is on the " ++ lantern.str ++ " side, but selected characters are on the "
    ++ charSide.str ++ " side"

/-- Lantern accompaniment message (the branch claimed unreachable). -/
def msgAccompany : String := "At least one character must accompany the lantern when crossing"

/-- Playing-state violation message. -/
def msgNotPlaying : String := "Game is not in playing state"

/-- Spread of a JS `Set` built from a list: `[...new Set(xs)]` keeps the
first occurrence of each element, in order.  `seen` accumulates the
elements already emitted. -/
def jsSetAux (seen : List Side) : List Side → List Side
  | [] => []
  | x :: xs => if x ∈ seen then jsSetAux seen xs else x :: jsSetAux (x :: seen) xs

/-- The list `[...new Set(l)]`. -/
def jsSet (l : List Side) : List Side :=
  jsSetAux [] l

/-- Math.max over a spread list.  The engine only applies it to non-empty
lists (validation guarantees at least one selected character); the value on
`[]` (JS: `-Infinity`) is irrelevant and fixed arbitrarily to 0. -/
def jsMax : List ℚ → ℚ
  | [] => 0
  | x :: xs => xs.foldl max x

/-- BridgeController.validateLanternMovement. -/
def validateLanternMovement (gs : GameState) (characters : List Character) :
    Bool × List String :=
  if characters.length = 0 then
    (false, [msgNoLanternCarrier])
  else
    let characterSide := (characters.headD default).side
    let e1 := if gs.lanternSide ≠ characterSide then
        [msgLanternMismatch gs.lanternSide characterSide] else []
    let charactersOnLanternSide := gs.getCharactersOnSide gs.lanternSide
    let e2 := if charactersOnLanternSide.length > 0 ∧ characters.length = 0 then
        [msgAccompany] else []
    let errors := e1 ++ e2
    (errors.length = 0, errors)

/-- BridgeController.validateMove: collects violation reasons in rule order
(non-empty with early return, capacity, same side, lantern, playing state)
and is valid exactly when no reason was collected. -/
def validateMove (gs : GameState) (characters : List Character) : Bool × List String :=
  if characters.length = 0 then
    (false, [msgNoCharacters])
  else
    let e1 := if characters.length > 2 then [msgMaxTwo] else []
    let sides := jsSet (characters.map (fun c => c.side))
    let e2 := if sides.length > 1 then [msgSameSide] else []
    let lv := validateLanternMovement gs characters
    let e3 := if lv.1 = false then lv.2 else []
    let e4 := if gs.gameStatus ≠ GameStatus.playing then [msgNotPlaying] else []
    let errors := e1 ++ e2 ++ e3 ++ e4
    (errors.length = 0, errors)

/-- Dereference a proposed move: the character objects handed to the
controller are references into `gameState.characters`, modelled as indices. -/
def charsAt (gs : GameState) (idxs : List Nat) : List Character :=
  idxs.map (fun i => gs.characters.getD i default)

/-- The `characters.forEach(char => { char.moveTo(toSide); char.selected = false })`
loop of `completeCrossing`, acting on the state array through the
references: entry `k + i` of the array is updated when its index is in
`idxs`. -/
def updateCharsAux (k : Nat) (idxs : List Nat) (toSide : Side) :
    List Character → List Character
  | [] => []
  | c :: cs =>
      (if k ∈ idxs then { c with side := toSide, selected := false } else c)
        :: updateCharsAux (k + 1) idxs toSide cs

/-- Characters array after the move loop of `completeCrossing`. -/
def updateChars (chars : List Character) (idxs : List Nat) (toSide : Side) :
    List Character :=
  updateCharsAux 0 idxs toSide chars

/-- BridgeController.completeCrossing: move the selected characters and
clear their selection, move the lantern, update the timer (which performs
the loss/victory checks), record the move, and re-check victory. -/
def completeCrossing (gs : GameState) (idxs : List Nat) (fromSide toSide : Side)
    (crossingTime : ℚ) : GameState :=
  let gs1 := { gs with characters := updateChars gs.characters idxs toSide }
  let gs2 := gs1.moveLantern toSide
  let gs3 := gs2.updateTimer crossingTime
  let gs4 := gs3.recordMove (charsAt gs3 idxs) crossingTime fromSide toSide
  gs4.checkVictoryCondition.1

/-- Result object of `executeCrossing`: `{success: false, errors}` or
`{success: true, timeUsed, fromSide, toSide, gameStatus}`. -/
inductive CrossingResult where
  | failure (errors : List String)
  | success (timeUsed : ℚ) (fromSide toSide : Side) (gameStatus : GameStatus)
deriving DecidableEq, Inhabited

/-- BridgeController.executeCrossing without a scene (`scene = null`, so
`completeCrossing` runs immediately): validates, and on success computes
the slowest-member crossing time, the origin side from the first selected
character and the opposite destination side, applies the crossing, and
reports the resulting game status. -/
def executeCrossing (gs : GameState) (idxs : List Nat) : CrossingResult × GameState :=
  let characters := charsAt gs idxs
  let v := validateMove gs characters
  if v.1 then
    let crossingTime := jsMax (characters.map (fun c => c.crossingTime))
    let fromSide := (characters.headD default).side
    let toSide := if fromSide = Side.left then Side.right else Side.left
    let gs2 := completeCrossing gs idxs fromSide toSide crossingTime
    (CrossingResult.success crossingTime fromSide toSide gs2.gameStatus, gs2)
  else
    (CrossingResult.failure v.2, gs)

/-- All two-element combinations `[l[i], l[j]]` with `i < j`, in the order
produced by the nested loops of `getAvailableMoves`. -/
def pairsOf : List Character → List (List Character)
  | [] => []
  | x :: xs => xs.map (fun y => [x, y]) ++ pairsOf xs

/-- Single-character moves followed by two-character combinations, the push
order of one branch of `getAvailableMoves`. -/
def movesFrom (chars : List Character) : List (List Character) :=
  chars.map (fun c => [c]) ++ pairsOf chars

/-- BridgeController.getAvailableMoves: candidate moves from the side
holding the lantern (each branch also requires that side non-empty). -/
def getAvailableMoves (gs : GameState) : List (List Character) :=
  let leftCharacters := gs.getCharactersOnSide Side.left
  let rightCharacters := gs.getCharactersOnSide Side.right
  (if gs.lanternSide = Side.left ∧ leftCharacters.length > 0 then
      movesFrom leftCharacters else [])
    ++ (if gs.lanternSide = Side.right ∧ rightCharacters.length > 0 then
      movesFrom rightCharacters else [])

/-- Fold a sequence of `executeCrossing` calls over a state. -/
def execSeq (gs : GameState) (moves : List (List Nat)) : GameState :=
  moves.foldl (fun g m => (executeCrossing g m).2) gs

/-- States reachable by the engine's move interface: the freshly
constructed state, any `executeCrossing` call whose character references
point into the state's array, and `reset()`. -/
inductive Reachable : GameState → Prop
  | init : Reachable initialState
  | cross (gs : GameState) (idxs : List Nat) (hgs : Reachable gs)
      (hb : ∀ i ∈ idxs, i < gs.characters.length) :
      Reachable (executeCrossing gs idxs).2
  | reset (gs : GameState) (hgs : Reachable gs) : Reachable gs.reset

/-- A state one crossing away from scenario F of the spec: three characters
already across, the Professor and the lantern on the left, exactly the
Professor's crossing time left on the clock. -/
def scenarioF : GameState :=
  { timeRemaining := 10, lanternSide := Side.left, gameStatus := GameStatus.playing,
    moveHistory := [],
    characters :=
      [ { mkCharacter "You" 1 (some "player") with side := Side.right },
        { mkCharacter "Lab Assistant" 2 (some "assistant") with side := Side.right },
        { mkCharacter "Janitor" 5 (some "janitor") with side := Side.right },
        mkCharacter "Professor" 10 (some "professor") ] }

/-- The state scenario F ends in: everyone across, the clock at 0, won. -/
def scenarioFAfter : GameState :=
  { timeRemaining := 0, lanternSide := Side.right, gameStatus := GameStatus.won,
    moveHistory :=
      [{ characters := ["Professor"], timeUsed := 10,
         fromSide := Side.left, toSide := Side.right }],
    characters :=
      [ { mkCharacter "You" 1 (some "player") with side := Side.right },
        { mkCharacter "Lab Assistant" 2 (some "assistant") with side := Side.right },
        { mkCharacter "Janitor" 5 (some "janitor") with side := Side.right },
        { mkCharacter "Professor" 10 (some "professor") with side := Side.right } ] }

/-- A finished game, used to exercise the terminal-state behaviour. -/
def wonState : GameState :=
  { initialState with gameStatus := GameStatus.won }

/-! ### Projection lemmas for the state-mutating methods -/

theorem checkVictoryCondition_characters (gs : GameState) :
    gs.checkVictoryCondition.1.characters = gs.characters := by
  unfold GameState.checkVictoryCondition
  split <;> rfl

theorem checkVictoryCondition_lanternSide (gs : GameState) :
    gs.checkVictoryCondition.1.lanternSide = gs.lanternSide := by
  unfold GameState.checkVictoryCondition
  split <;> rfl

theorem checkVictoryCondition_timeRemaining (gs : GameState) :
    gs.checkVictoryCondition.1.timeRemaining = gs.timeRemaining := by
  unfold GameState.checkVictoryCondition
  split <;> rfl

theorem checkVictoryCondition_moveHistory (gs : GameState) :
    gs.checkVictoryCondition.1.moveHistory = gs.moveHistory := by
  unfold GameState.checkVictoryCondition
  split <;> rfl

theorem checkVictoryCondition_gameStatus (gs : GameState) :
    gs.checkVictoryCondition.1.gameStatus =
      if (gs.getCharactersOnSide Side.right).length = gs.characters.length then
        GameStatus.won
      else gs.gameStatus := by
  by_cases h : (gs.getCharactersOnSide Side.right).length = gs.characters.length <;>
    simp [GameState.checkVictoryCondition, h]

theorem updateTimer_characters (gs : GameState) (t : ℚ) :
    (gs.updateTimer t).characters = gs.characters := by
  simp only [GameState.updateTimer]
  split <;> rw [checkVictoryCondition_characters]

theorem updateTimer_lanternSide (gs : GameState) (t : ℚ) :
    (gs.updateTimer t).lanternSide = gs.lanternSide := by
  simp only [GameState.updateTimer]
  split <;> rw [checkVictoryCondition_lanternSide]

theorem updateTimer_moveHistory (gs : GameState) (t : ℚ) :
    (gs.updateTimer t).moveHistory = gs.moveHistory := by
  simp only [GameState.updateTimer]
  split <;> rw [checkVictoryCondition_moveHistory]

theorem updateTimer_timeRemaining (gs : GameState) (t : ℚ) :
    (gs.updateTimer t).timeRemaining = max (gs.timeRemaining - t) 0 := by
  simp only [GameState.updateTimer]
  split <;> rw [checkVictoryCondition_timeRemaining]
  · exact (max_eq_right (by assumption)).symm
  · exact (max_eq_left (le_of_not_le (by assumption))).symm

theorem updateTimer_gameStatus (gs : GameState) (t : ℚ) :
    (gs.updateTimer t).gameStatus =
      if (gs.getCharactersOnSide Side.right).length = gs.characters.length then
        GameStatus.won
      else if gs.timeRemaining - t ≤ 0 then GameStatus.lost
      else gs.gameStatus := by
  have hset : ∀ st : GameStatus, ∀ q : ℚ,
      ({ gs with timeRemaining := q, gameStatus := st } :
        GameState).getCharactersOnSide Side.right = gs.getCharactersOnSide Side.right := by
    intro st q; rfl
  simp only [GameState.updateTimer]
  by_cases h1 : gs.timeRemaining - t ≤ 0 <;>
    by_cases h2 : (gs.getCharactersOnSide Side.right).length = gs.characters.length <;>
    simp [h1, checkVictoryCondition_gameStatus, GameState.getCharactersOnSide] at h2 ⊢

theorem recordMove_characters (gs : GameState) (cs : List Character) (t : ℚ)
    (f ts : Side) : (gs.recordMove cs t f ts).characters = gs.characters := rfl

theorem recordMove_lanternSide (gs : GameState) (cs : List Character) (t : ℚ)
    (f ts : Side) : (gs.recordMove cs t f ts).lanternSide = gs.lanternSide := rfl

theorem recordMove_timeRemaining (gs : GameState) (cs : List Character) (t : ℚ)
    (f ts : Side) : (gs.recordMove cs t f ts).timeRemaining = gs.timeRemaining := rfl

theorem recordMove_gameStatus (gs : GameState) (cs : List Character) (t : ℚ)
    (f ts : Side) : (gs.recordMove cs t f ts).gameStatus = gs.gameStatus := rfl

theorem recordMove_moveHistory (gs : GameState) (cs : List Character) (t : ℚ)
    (f ts : Side) :
    (gs.recordMove cs t f ts).moveHistory = gs.moveHistory ++
      [{ characters := cs.map (fun c => c.name), timeUsed := t,
         fromSide := f, toSide := ts }] := rfl

/-! ### The character-update loop -/

theorem updateCharsAux_length (idxs : List Nat) (s : Side) :
    ∀ (l : List Character) (k : Nat), (updateCharsAux k idxs s l).length = l.length := by
  intro l
  induction l with
  | nil => intro k; rfl
  | cons c cs ih =>
      intro k
      simp [updateCharsAux, ih (k + 1)]

theorem updateChars_length (chars : List Character) (idxs : List Nat) (s : Side) :
    (updateChars chars idxs s).length = chars.length :=
  updateCharsAux_length idxs s chars 0

theorem updateCharsAux_getD (idxs : List Nat) (s : Side) (d : Character) :
    ∀ (l : List Character) (k i : Nat), i < l.length →
      (updateCharsAux k idxs s l).getD i d =
        (if k + i ∈ idxs then
          { l.getD i d with side := s, selected := false }
        else l.getD i d) := by
  intro l
  induction l with
  | nil => intro k i h; simp at h
  | cons c cs ih =>
      intro k i h
      cases i with
      | zero => simp only [updateCharsAux, List.getD_cons_zero, Nat.add_zero]
      | succ j =>
          have hj : j < cs.length := by simpa using h
          have hkj : k + (j + 1) = (k + 1) + j := by omega
          simp only [updateCharsAux, List.getD_cons_succ]
          rw [ih (k + 1) j hj, hkj]

theorem updateChars_getD (chars : List Character) (idxs : List Nat) (s : Side)
    (d : Character) (i : Nat) (h : i < chars.length) :
    (updateChars chars idxs s).getD i d =
      (if i ∈ idxs then
        { chars.getD i d with side := s, selected := false }
      else chars.getD i d) := by
  have := updateCharsAux_getD idxs s d chars 0 i h
  simpa using this

theorem updateCharsAux_map_normalize (idxs : List Nat) (s : Side) :
    ∀ (l : List Character) (k : Nat),
      (updateCharsAux k idxs s l).map
          (fun c => { c with side := Side.left, selected := false }) =
        l.map (fun c => { c with side := Side.left, selected := false }) := by
  intro l
  induction l with
  | nil => intro k; rfl
  | cons c cs ih =>
      intro k
      simp only [updateCharsAux, List.map_cons, ih (k + 1)]
      split <;> rfl

/-! ### The distinct-sides set -/

theorem mem_jsSetAux (a : Side) :
    ∀ (l seen : List Side), a ∈ jsSetAux seen l ↔ a ∈ l ∧ a ∉ seen := by
  intro l
  induction l with
  | nil => intro seen; simp [jsSetAux]
  | cons x xs ih =>
      intro seen
      by_cases hx : x ∈ seen
      · rw [show jsSetAux seen (x :: xs) = jsSetAux seen xs by
            simp only [jsSetAux, if_pos hx], ih seen]
        constructor
        · rintro ⟨h1, h2⟩
          exact ⟨List.mem_cons_of_mem x h1, h2⟩
        · rintro ⟨h1, h2⟩
          rcases List.mem_cons.mp h1 with rfl | h1
          · exact absurd hx h2
          · exact ⟨h1, h2⟩
      · rw [show jsSetAux seen (x :: xs) = x :: jsSetAux (x :: seen) xs by
            simp only [jsSetAux, if_neg hx]]
        constructor
        · intro hmem
          rcases List.mem_cons.mp hmem with rfl | hmem
          · exact ⟨List.mem_cons_self a xs, hx⟩
          · obtain ⟨h1, h2⟩ := (ih (x :: seen)).mp hmem
            refine ⟨List.mem_cons_of_mem x h1, fun hs => h2 ?_⟩
            exact List.mem_cons_of_mem x hs
        · rintro ⟨h1, h2⟩
          rcases List.mem_cons.mp h1 with rfl | h1
          · exact List.mem_cons_self a _
          · by_cases hax : a = x
            · rw [hax]; exact List.mem_cons_self x _
            · refine List.mem_cons_of_mem x ((ih (x :: seen)).mpr ⟨h1, fun hs => ?_⟩)
              rcases List.mem_cons.mp hs with h | h
              · exact hax h
              · exact h2 h

theorem jsSetAux_eq_nil (seen : List Side) (l : List Side)
    (h : ∀ x ∈ l, x ∈ seen) : jsSetAux seen l = [] := by
  induction l with
  | nil => rfl
  | cons x xs ih =>
      have hx : x ∈ seen := h x (List.mem_cons_self x xs)
      simp only [jsSetAux, if_pos hx]
      exact ih fun y hy => h y (List.mem_cons_of_mem x hy)

theorem jsSet_length_le_one_iff (l : List Side) :
    (jsSet l).length ≤ 1 ↔ ∀ a ∈ l, ∀ b ∈ l, a = b := by
  constructor
  · intro h a ha b hb
    cases l with
    | nil => simp at ha
    | cons x xs =>
        have hx : x ∉ ([] : List Side) := by simp
        have hform : jsSet (x :: xs) = x :: jsSetAux [x] xs := by
          simp [jsSet, jsSetAux]
        rw [hform] at h
        have htail : jsSetAux [x] xs = [] := by
          cases htail : jsSetAux [x] xs with
          | nil => rfl
          | cons y ys => rw [htail] at h; simp at h
        have hall : ∀ y ∈ xs, y = x := by
          intro y hy
          by_contra hne
          have : y ∈ jsSetAux [x] xs := by
            rw [mem_jsSetAux]
            exact ⟨hy, by simpa using hne⟩
          rw [htail] at this
          simp at this
        have ha' : a = x := by
          rcases List.mem_cons.mp ha with h' | h'
          · exact h'
          · exact hall a h'
        have hb' : b = x := by
          rcases List.mem_cons.mp hb with h' | h'
          · exact h'
          · exact hall b h'
        rw [ha', hb']
  · intro h
    cases l with
    | nil => simp [jsSet, jsSetAux]
    | cons x xs =>
        have hform : jsSet (x :: xs) = x :: jsSetAux [x] xs := by
          simp [jsSet, jsSetAux]
        have htail : jsSetAux [x] xs = [] := by
          apply jsSetAux_eq_nil
          intro y hy
          have : y = x := h y (List.mem_cons_of_mem x hy) x (List.mem_cons_self x xs)
          simp [this]
        rw [hform, htail]
        simp

theorem jsSet_length_gt_one_iff (l : List Side) :
    (jsSet l).length > 1 ↔ ∃ a ∈ l, ∃ b ∈ l, a ≠ b := by
  rw [gt_iff_lt, ← not_le, jsSet_length_le_one_iff]
  push_neg
  rfl

/-! ### Math.max over a list -/

theorem foldl_max_init_le : ∀ (xs : List ℚ) (a : ℚ), a ≤ xs.foldl max a := by
  intro xs
  induction xs with
  | nil => intro a; simp
  | cons y ys ih =>
      intro a
      calc a ≤ max a y := le_max_left a y
        _ ≤ (y :: ys).foldl max a := by simpa using ih (max a y)

theorem foldl_max_mem_le : ∀ (xs : List ℚ) (a x : ℚ), x ∈ xs → x ≤ xs.foldl max a := by
  intro xs
  induction xs with
  | nil => intro a x h; simp at h
  | cons y ys ih =>
      intro a x h
      rcases List.mem_cons.mp h with rfl | h
      · calc x ≤ max a x := le_max_right a x
          _ ≤ (x :: ys).foldl max a := by simpa using foldl_max_init_le ys (max a x)
      · simpa using ih (max a y) x h

theorem foldl_max_mem : ∀ (xs : List ℚ) (a : ℚ),
    xs.foldl max a = a ∨ xs.foldl max a ∈ xs := by
  intro xs
  induction xs with
  | nil => intro a; simp
  | cons y ys ih =>
      intro a
      rcases ih (max a y) with h | h
      · rcases max_choice a y with hm | hm
        · left
          simp only [List.foldl_cons]
          rw [h, hm]
        · right
          simp only [List.foldl_cons]
          rw [h, hm]
          exact List.mem_cons_self y ys
      · right
        simp only [List.foldl_cons]
        exact List.mem_cons_of_mem y h

theorem jsMax_mem (l : List ℚ) (h : l ≠ []) : jsMax l ∈ l := by
  cases l with
  | nil => exact absurd rfl h
  | cons x xs =>
      rcases foldl_max_mem xs x with h' | h'
      · simp [jsMax, h']
      · exact List.mem_cons_of_mem x (by simpa [jsMax] using h')

theorem jsMax_le (l : List ℚ) (x : ℚ) (h : x ∈ l) : x ≤ jsMax l := by
  cases l with
  | nil => simp at h
  | cons y ys =>
      rcases List.mem_cons.mp h with rfl | h'
      · simpa [jsMax] using foldl_max_init_le ys x
      · simpa [jsMax] using foldl_max_mem_le ys y x h'

/-! ### Characterizing the validators -/

theorem validateLanternMovement_snd (gs : GameState) (chars : List Character)
    (h : chars ≠ []) :
    (validateLanternMovement gs chars).2 =
      if gs.lanternSide = (chars.headD default).side then []
      else [msgLanternMismatch gs.lanternSide (chars.headD default).side] := by
  have hlen : ¬ chars.length = 0 := by simpa using h
  by_cases hs : gs.lanternSide = (chars.headD default).side <;>
    simp [validateLanternMovement, hlen, hs]

theorem validateLanternMovement_fst (gs : GameState) (chars : List Character)
    (h : chars ≠ []) :
    ((validateLanternMovement gs chars).1 = true ↔
      gs.lanternSide = (chars.headD default).side) := by
  have hlen : ¬ chars.length = 0 := by simpa using h
  by_cases hs : gs.lanternSide = (chars.headD default).side <;>
    simp [validateLanternMovement, hlen, hs]

theorem validateMove_empty (gs : GameState) :
    validateMove gs [] = (false, [msgNoCharacters]) := rfl

theorem validateMove_snd (gs : GameState) (chars : List Character) (h : chars ≠ []) :
    (validateMove gs chars).2 =
      (if chars.length > 2 then [msgMaxTwo] else [])
        ++ (if (jsSet (chars.map (fun c => c.side))).length > 1 then [msgSameSide] else [])
        ++ (if gs.lanternSide = (chars.headD default).side then []
          else [msgLanternMismatch gs.lanternSide (chars.headD default).side])
        ++ (if gs.gameStatus ≠ GameStatus.playing then [msgNotPlaying] else []) := by
  have hlen : ¬ chars.length = 0 := by simpa using h
  by_cases hs : gs.lanternSide = (chars.headD default).side
  · have h1 : (validateLanternMovement gs chars).1 = true :=
      (validateLanternMovement_fst gs chars h).mpr hs
    simp [validateMove, hlen, h1, hs]
  · have h1 : (validateLanternMovement gs chars).1 = false := by
      cases hb : (validateLanternMovement gs chars).1 with
      | false => rfl
      | true => exact absurd ((validateLanternMovement_fst gs chars h).mp hb) hs
    simp [validateMove, hlen, h1, hs, validateLanternMovement_snd gs chars h]

theorem validateMove_fst_iff_snd (gs : GameState) (chars : List Character) :
    ((validateMove gs chars).1 = true ↔ (validateMove gs chars).2 = []) := by
  by_cases hlen : chars.length = 0
  · rcases List.length_eq_zero.mp hlen with rfl
    simp [validateMove_empty, msgNoCharacters]
  · simp only [validateMove, if_neg hlen, decide_eq_true_eq]
    exact List.length_eq_zero

theorem validateMove_valid_iff (gs : GameState) (chars : List Character) :
    ((validateMove gs chars).1 = true ↔
      chars ≠ [] ∧ chars.length ≤ 2 ∧
        (∀ a ∈ chars, ∀ b ∈ chars, a.side = b.side) ∧
        gs.lanternSide = (chars.headD default).side ∧
        gs.gameStatus = GameStatus.playing) := by
  by_cases hlen : chars.length = 0
  · rcases List.length_eq_zero.mp hlen with rfl
    simp [validateMove_empty]
  · have hne : chars ≠ [] := by
      intro h'; exact hlen (by simp [h'])
    rw [validateMove_fst_iff_snd, validateMove_snd gs chars hne]
    constructor
    · intro h'
      simp only [List.append_eq_nil] at h'
      obtain ⟨⟨⟨h1, h2⟩, h3⟩, h4⟩ := h'
      have h1' : ¬ chars.length > 2 := by
        by_contra hc; rw [if_pos hc] at h1; exact List.cons_ne_nil _ _ h1
      have h2' : ¬ (jsSet (chars.map (fun c => c.side))).length > 1 := by
        by_contra hc; rw [if_pos hc] at h2; exact List.cons_ne_nil _ _ h2
      have h3' : gs.lanternSide = (chars.headD default).side := by
        by_contra hc; rw [if_neg hc] at h3; exact List.cons_ne_nil _ _ h3
      have h4' : gs.gameStatus = GameStatus.playing := by
        by_contra hc; rw [if_pos hc] at h4; exact List.cons_ne_nil _ _ h4
      refine ⟨hne, by omega, ?_, h3', h4'⟩
      intro a ha b hb
      have := (jsSet_length_le_one_iff (chars.map (fun c => c.side))).mp (by omega)
      exact this a.side (List.mem_map_of_mem _ ha) b.side (List.mem_map_of_mem _ hb)
    · rintro ⟨_, h2, h3, h4, h5⟩
      have hs2 : ¬ (jsSet (chars.map (fun c => c.side))).length > 1 := by
        rw [not_lt]
        apply (jsSet_length_le_one_iff _).mpr
        intro a ha b hb
        rcases List.mem_map.mp ha with ⟨ca, hca, rfl⟩
        rcases List.mem_map.mp hb with ⟨cb, hcb, rfl⟩
        exact h3 ca hca cb hcb
      rw [if_neg (show ¬ chars.length > 2 by omega), if_neg hs2, if_pos h4,
        if_neg (show ¬ gs.gameStatus ≠ GameStatus.playing from not_ne_iff.mpr h5)]
      rfl

/-! ### Unfolding executeCrossing and completeCrossing -/

theorem moveLantern_characters (gs : GameState) (s : Side) :
    (gs.moveLantern s).characters = gs.characters := rfl

theorem moveLantern_lanternSide (gs : GameState) (s : Side) :
    (gs.moveLantern s).lanternSide = s := rfl

theorem moveLantern_timeRemaining (gs : GameState) (s : Side) :
    (gs.moveLantern s).timeRemaining = gs.timeRemaining := rfl

theorem moveLantern_moveHistory (gs : GameState) (s : Side) :
    (gs.moveLantern s).moveHistory = gs.moveHistory := rfl

theorem getCharactersOnSide_congr (g1 g2 : GameState)
    (h : g1.characters = g2.characters) (s : Side) :
    g1.getCharactersOnSide s = g2.getCharactersOnSide s := by
  simp [GameState.getCharactersOnSide, h]

theorem executeCrossing_invalid (gs : GameState) (idxs : List Nat)
    (h : (validateMove gs (charsAt gs idxs)).1 = false) :
    executeCrossing gs idxs =
      (CrossingResult.failure (validateMove gs (charsAt gs idxs)).2, gs) := by
  simp [executeCrossing, h]

theorem executeCrossing_valid (gs : GameState) (idxs : List Nat)
    (h : (validateMove gs (charsAt gs idxs)).1 = true) :
    executeCrossing gs idxs =
      (CrossingResult.success (jsMax ((charsAt gs idxs).map (fun c => c.crossingTime)))
          ((charsAt gs idxs).headD default).side
          (if ((charsAt gs idxs).headD default).side = Side.left then Side.right
            else Side.left)
          (completeCrossing gs idxs ((charsAt gs idxs).headD default).side
            (if ((charsAt gs idxs).headD default).side = Side.left then Side.right
              else Side.left)
            (jsMax ((charsAt gs idxs).map (fun c => c.crossingTime)))).gameStatus,
        completeCrossing gs idxs ((charsAt gs idxs).headD default).side
          (if ((charsAt gs idxs).headD default).side = Side.left then Side.right
            else Side.left)
          (jsMax ((charsAt gs idxs).map (fun c => c.crossingTime)))) := by
  simp [executeCrossing, h]

theorem completeCrossing_characters (gs : GameState) (idxs : List Nat)
    (f ts : Side) (ct : ℚ) :
    (completeCrossing gs idxs f ts ct).characters = updateChars gs.characters idxs ts := by
  simp only [completeCrossing]
  rw [checkVictoryCondition_characters, recordMove_characters, updateTimer_characters,
    moveLantern_characters]

theorem completeCrossing_lanternSide (gs : GameState) (idxs : List Nat)
    (f ts : Side) (ct : ℚ) :
    (completeCrossing gs idxs f ts ct).lanternSide = ts := by
  simp only [completeCrossing]
  rw [checkVictoryCondition_lanternSide, recordMove_lanternSide, updateTimer_lanternSide,
    moveLantern_lanternSide]

theorem completeCrossing_timeRemaining (gs : GameState) (idxs : List Nat)
    (f ts : Side) (ct : ℚ) :
    (completeCrossing gs idxs f ts ct).timeRemaining =
      max (gs.timeRemaining - ct) 0 := by
  simp only [completeCrossing]
  rw [checkVictoryCondition_timeRemaining, recordMove_timeRemaining,
    updateTimer_timeRemaining, moveLantern_timeRemaining]

theorem completeCrossing_moveHistory (gs : GameState) (idxs : List Nat)
    (f ts : Side) (ct : ℚ) :
    ∃ r, (completeCrossing gs idxs f ts ct).moveHistory = gs.moveHistory ++ [r] := by
  simp only [completeCrossing]
  rw [checkVictoryCondition_moveHistory, recordMove_moveHistory, updateTimer_moveHistory,
    moveLantern_moveHistory]
  exact ⟨_, rfl⟩

theorem checkVictoryCondition_fst_won (g : GameState)
    (h : (g.checkVictoryCondition.1.getCharactersOnSide Side.right).length =
      g.checkVictoryCondition.1.characters.length) :
    g.checkVictoryCondition.1.gameStatus = GameStatus.won := by
  have hc : g.checkVictoryCondition.1.characters = g.characters :=
    checkVictoryCondition_characters g
  rw [getCharactersOnSide_congr _ g hc Side.right, hc] at h
  rw [checkVictoryCondition_gameStatus, if_pos h]

theorem completeCrossing_gameStatus_won (gs : GameState) (idxs : List Nat)
    (f ts : Side) (ct : ℚ)
    (h : ((completeCrossing gs idxs f ts ct).getCharactersOnSide Side.right).length =
      (completeCrossing gs idxs f ts ct).characters.length) :
    (completeCrossing gs idxs f ts ct).gameStatus = GameStatus.won := by
  simp only [completeCrossing] at h ⊢
  exact checkVictoryCondition_fst_won _ h

theorem charsAt_ne_nil (gs : GameState) (idxs : List Nat) :
    charsAt gs idxs ≠ [] ↔ idxs ≠ [] := by
  simp [charsAt]

/-! ### Small list utilities -/

theorem getD_mem (d : Character) :
    ∀ (l : List Character) (i : Nat), i < l.length → l.getD i d ∈ l := by
  intro l
  induction l with
  | nil => intro i h; simp at h
  | cons c cs ih =>
      intro i h
      cases i with
      | zero => simp
      | succ j =>
          have hj : j < cs.length := by simpa using h
          rw [List.getD_cons_succ]
          exact List.mem_cons_of_mem c (ih j hj)

theorem getD_map (f : Character → Character) (d : Character) :
    ∀ (l : List Character) (i : Nat), i < l.length →
      (l.map f).getD i d = f (l.getD i d) := by
  intro l
  induction l with
  | nil => intro i h; simp at h
  | cons c cs ih =>
      intro i h
      cases i with
      | zero => simp
      | succ j =>
          have hj : j < cs.length := by simpa using h
          rw [List.map_cons, List.getD_cons_succ, List.getD_cons_succ]
          exact ih j hj

/-! ### Counting and shape of the move enumeration -/

theorem pairsOf_length : ∀ l : List Character, (pairsOf l).length = Nat.choose l.length 2 := by
  intro l
  induction l with
  | nil => rfl
  | cons x xs ih =>
      have : (xs.length + 1).choose 2 = xs.length.choose 1 + xs.length.choose 2 :=
        Nat.choose_succ_succ xs.length 1
      simp [pairsOf, ih, this, Nat.choose_one_right]

theorem mem_pairsOf : ∀ (l : List Character) (m : List Character), m ∈ pairsOf l →
    ∃ a ∈ l, ∃ b ∈ l, m = [a, b] := by
  intro l
  induction l with
  | nil => intro m h; simp [pairsOf] at h
  | cons x xs ih =>
      intro m h
      rcases List.mem_append.mp h with h' | h'
      · rcases List.mem_map.mp h' with ⟨b, hb, rfl⟩
        exact ⟨x, List.mem_cons_self x xs, b, List.mem_cons_of_mem x hb, rfl⟩
      · rcases ih m h' with ⟨a, ha, b, hb, rfl⟩
        exact ⟨a, List.mem_cons_of_mem x ha, b, List.mem_cons_of_mem x hb, rfl⟩

theorem movesFrom_length (l : List Character) :
    (movesFrom l).length = l.length + l.length * (l.length - 1) / 2 := by
  simp [movesFrom, pairsOf_length, Nat.choose_two_right]

theorem mem_movesFrom (l m : List Character) (h : m ∈ movesFrom l) :
    ∀ c ∈ m, c ∈ l := by
  rcases List.mem_append.mp h with h' | h'
  · rcases List.mem_map.mp h' with ⟨c, hc, rfl⟩
    intro c' hc'
    rcases List.mem_singleton.mp hc' with rfl
    exact hc
  · rcases mem_pairsOf l m h' with ⟨a, ha, b, hb, rfl⟩
    intro c' hc'
    rcases List.mem_cons.mp hc' with rfl | hc'
    · exact ha
    · rcases List.mem_singleton.mp hc' with rfl
      exact hb

theorem singleton_mem_movesFrom (l : List Character) (c : Character) (h : c ∈ l) :
    [c] ∈ movesFrom l :=
  List.mem_append_left _ (List.mem_map_of_mem (fun c => [c]) h)

theorem getAvailableMoves_eq (gs : GameState) :
    getAvailableMoves gs =
      if (gs.getCharactersOnSide gs.lanternSide).length > 0 then
        movesFrom (gs.getCharactersOnSide gs.lanternSide)
      else [] := by
  cases h : gs.lanternSide <;>
    simp [getAvailableMoves, h]

theorem mem_getCharactersOnSide (gs : GameState) (s : Side) (c : Character)
    (h : c ∈ gs.getCharactersOnSide s) : c.side = s := by
  have := List.of_mem_filter h
  simpa [Character.isOnSide] using this

/-! ### Messages are pairwise distinct where it matters -/

theorem msgAccompany_ne_mismatch (a b : Side) :
    msgAccompany ≠ msgLanternMismatch a b := by
  cases a <;> cases b <;> decide

/-! ### Invariants of reachable states -/

theorem initialState_reset : initialState.reset = initialState := by decide

theorem exec_snd_invalid (gs : GameState) (idxs : List Nat)
    (h : (validateMove gs (charsAt gs idxs)).1 = false) :
    (executeCrossing gs idxs).2 = gs := by
  rw [executeCrossing_invalid gs idxs h]

theorem exec_snd_valid (gs : GameState) (idxs : List Nat)
    (h : (validateMove gs (charsAt gs idxs)).1 = true) :
    (executeCrossing gs idxs).2 =
      completeCrossing gs idxs ((charsAt gs idxs).headD default).side
        (if ((charsAt gs idxs).headD default).side = Side.left then Side.right
          else Side.left)
        (jsMax ((charsAt gs idxs).map (fun c => c.crossingTime))) := by
  rw [executeCrossing_valid gs idxs h]

theorem reset_eq_of_map_eq (g1 g2 : GameState)
    (h : g1.characters.map (fun c => { c with side := Side.left, selected := false }) =
      g2.characters.map (fun c => { c with side := Side.left, selected := false })) :
    g1.reset = g2.reset := by
  simp [GameState.reset, h]

theorem reachable_reset (gs : GameState) (h : Reachable gs) :
    gs.reset = initialState := by
  induction h with
  | init => exact initialState_reset
  | cross gs idxs hgs hb ih =>
      by_cases hv : (validateMove gs (charsAt gs idxs)).1 = true
      · rw [exec_snd_valid gs idxs hv]
        have hchars :
            (completeCrossing gs idxs ((charsAt gs idxs).headD default).side
              (if ((charsAt gs idxs).headD default).side = Side.left then Side.right
                else Side.left)
              (jsMax ((charsAt gs idxs).map (fun c => c.crossingTime)))).characters =
            updateChars gs.characters idxs _ := completeCrossing_characters gs idxs _ _ _
        have hmap := updateCharsAux_map_normalize idxs
          (if ((charsAt gs idxs).headD default).side = Side.left then Side.right
            else Side.left) gs.characters 0
        rw [← ih]
        apply reset_eq_of_map_eq
        rw [hchars]
        exact hmap
      · rw [exec_snd_invalid gs idxs (Bool.not_eq_true _ ▸ hv)]
        exact ih
  | reset gs hgs ih =>
      rw [ih]
      exact initialState_reset

theorem reachable_lantern_inv (gs : GameState) (h : Reachable gs) :
    gs.characters ≠ [] ∧ ∃ c ∈ gs.characters, c.side = gs.lanternSide := by
  induction h with
  | init => exact ⟨by decide, by decide⟩
  | cross gs idxs hgs hb ih =>
      by_cases hv : (validateMove gs (charsAt gs idxs)).1 = true
      · rw [exec_snd_valid gs idxs hv]
        have hvalid := (validateMove_valid_iff gs (charsAt gs idxs)).mp hv
        have hne : idxs ≠ [] := (charsAt_ne_nil gs idxs).mp hvalid.1
        obtain ⟨i0, rest, rfl⟩ := List.exists_cons_of_ne_nil hne
        have hi0 : i0 < gs.characters.length := hb i0 (List.mem_cons_self i0 rest)
        have hchars := completeCrossing_characters gs (i0 :: rest)
          ((charsAt gs (i0 :: rest)).headD default).side
          (if ((charsAt gs (i0 :: rest)).headD default).side = Side.left then Side.right
            else Side.left)
          (jsMax ((charsAt gs (i0 :: rest)).map (fun c => c.crossingTime)))
        have hlen : (updateChars gs.characters (i0 :: rest)
            (if ((charsAt gs (i0 :: rest)).headD default).side = Side.left then Side.right
              else Side.left)).length = gs.characters.length :=
          updateChars_length _ _ _
        constructor
        · rw [hchars]
          intro hnil
          rw [hnil] at hlen
          exact ih.1 (List.length_eq_zero.mp hlen.symm)
        · refine ⟨(updateChars gs.characters (i0 :: rest)
            (if ((charsAt gs (i0 :: rest)).headD default).side = Side.left then Side.right
              else Side.left)).getD i0 default, ?_, ?_⟩
          · rw [hchars]
            exact getD_mem default _ i0 (by rw [hlen]; exact hi0)
          · rw [updateChars_getD gs.characters _ _ default i0 hi0,
              if_pos (List.mem_cons_self i0 rest), completeCrossing_lanternSide]
      · rw [exec_snd_invalid gs idxs (Bool.not_eq_true _ ▸ hv)]
        exact ih
  | reset gs hgs ih =>
      constructor
      · simp only [GameState.reset]
        intro hnil
        exact ih.1 (List.map_eq_nil_iff.mp hnil)
      · obtain ⟨c, hc, _⟩ := ih.2
        refine ⟨{ c with side := Side.left, selected := false }, ?_, rfl⟩
        simp only [GameState.reset]
        exact List.mem_map_of_mem _ hc

theorem headD_mem (l : List Character) (d : Character) (h : l ≠ []) :
    l.headD d ∈ l := by
  cases l with
  | nil => exact absurd rfl h
  | cons c cs => exact List.mem_cons_self c cs

theorem execSeq_cons (gs : GameState) (m : List Nat) (ms : List (List Nat)) :
    execSeq gs (m :: ms) = execSeq (executeCrossing gs m).2 ms := rfl

/-! ## The claims -/

/-- C1: a selection rejected by `validateMove` makes `executeCrossing`
(called without a scene) return a failure result whose errors are exactly
the validator's violation list, and return the game state unchanged — so
every observable component (each character's side and selection flag,
`lanternSide`, `timeRemaining`, `gameStatus`, `moveHistory`) is identical
before and after the call. -/
theorem claim_rejected_crossing_is_pure (gs : GameState) (idxs : List Nat)
    (h : (validateMove gs (charsAt gs idxs)).1 = false) :
    (executeCrossing gs idxs).1 =
      CrossingResult.failure (validateMove gs (charsAt gs idxs)).2 ∧
    (executeCrossing gs idxs).2 = gs := by
  rw [executeCrossing_invalid gs idxs h]
  exact ⟨rfl, rfl⟩

/-- C1 witness: the empty selection on the fresh state. -/
theorem claim_rejected_crossing_is_pure_witness :
    (validateMove initialState (charsAt initialState [])).1 = false ∧
    ((executeCrossing initialState []).1 =
      CrossingResult.failure (validateMove initialState (charsAt initialState [])).2 ∧
    (executeCrossing initialState []).2 = initialState) :=
  ⟨by decide, claim_rejected_crossing_is_pure initialState [] (by decide)⟩

/-- C2: a successful crossing that ends with every character on the right
side has final status `won`, even when the same update has driven the
timer to 0: `updateTimer` provisionally sets `lost`, but the victory check
that runs afterwards overwrites the status with `won`. -/
theorem claim_victory_overrides_timeout (gs : GameState) (idxs : List Nat)
    (t : ℚ) (f ts : Side) (st : GameStatus) (gs2 : GameState)
    (hex : executeCrossing gs idxs = (CrossingResult.success t f ts st, gs2))
    (hall : (gs2.getCharactersOnSide Side.right).length = gs2.characters.length)
    (h0 : gs2.timeRemaining = 0) :
    gs2.gameStatus = GameStatus.won := by
  by_cases hv : (validateMove gs (charsAt gs idxs)).1 = true
  · have hsnd : (executeCrossing gs idxs).2 = gs2 := by rw [hex]
    have h2 := exec_snd_valid gs idxs hv
    rw [hsnd] at h2
    rw [h2] at hall ⊢
    exact completeCrossing_gameStatus_won _ _ _ _ _ hall
  · have hfail := executeCrossing_invalid gs idxs (Bool.not_eq_true _ ▸ hv)
    rw [hex] at hfail
    exact absurd (congrArg Prod.fst hfail) (by simp)

/-- C2 witness: scenario F — the Professor crosses last, using exactly the
10 remaining minutes; the game is won, not lost. -/
theorem claim_victory_overrides_timeout_witness :
    executeCrossing scenarioF [3] =
      (CrossingResult.success 10 Side.left Side.right GameStatus.won, scenarioFAfter) ∧
    (scenarioFAfter.getCharactersOnSide Side.right).length =
      scenarioFAfter.characters.length ∧
    scenarioFAfter.timeRemaining = 0 ∧
    scenarioFAfter.gameStatus = GameStatus.won := by
  have hex : executeCrossing scenarioF [3] =
      (CrossingResult.success 10 Side.left Side.right GameStatus.won, scenarioFAfter) := by
    simp +decide [executeCrossing, validateMove, validateLanternMovement, charsAt,
      scenarioF, scenarioFAfter, mkCharacter, jsSet, jsSetAux, jsMax, completeCrossing,
      updateChars, updateCharsAux, GameState.moveLantern, GameState.updateTimer,
      GameState.checkVictoryCondition, GameState.getCharactersOnSide,
      GameState.recordMove, Character.isOnSide]
  exact ⟨hex, by decide, by decide,
    claim_victory_overrides_timeout scenarioF [3] 10 Side.left Side.right
      GameStatus.won scenarioFAfter hex (by decide) (by decide)⟩

/-- C3: a non-empty selection accepted by `validateMove` makes
`executeCrossing` (no scene) succeed with `timeUsed` the maximum crossing
time of the selected characters and destination the opposite of their
shared side; afterwards each selected character sits on the destination
side with its selection cleared, the lantern is on the destination side,
the timer has dropped by `timeUsed` (clamped at 0), and exactly one record
has been appended to the history. -/
theorem claim_successful_crossing_effects (gs : GameState) (idxs : List Nat)
    (hv : (validateMove gs (charsAt gs idxs)).1 = true)
    (hb : ∀ i ∈ idxs, i < gs.characters.length) :
    ∃ t ts gs2,
      executeCrossing gs idxs =
        (CrossingResult.success t ((charsAt gs idxs).headD default).side ts
          gs2.gameStatus, gs2) ∧
      (∃ c ∈ charsAt gs idxs, c.crossingTime = t) ∧
      (∀ c ∈ charsAt gs idxs, c.crossingTime ≤ t) ∧
      (∀ c ∈ charsAt gs idxs, c.side = ((charsAt gs idxs).headD default).side) ∧
      ts = (if ((charsAt gs idxs).headD default).side = Side.left then Side.right
        else Side.left) ∧
      (∀ i ∈ idxs, (gs2.characters.getD i default).side = ts ∧
        (gs2.characters.getD i default).selected = false) ∧
      gs2.lanternSide = ts ∧
      gs2.timeRemaining = max (gs.timeRemaining - t) 0 ∧
      (∃ r, gs2.moveHistory = gs.moveHistory ++ [r]) := by
  obtain ⟨hne, hcap, hsame, hlant, hplay⟩ :=
    (validateMove_valid_iff gs (charsAt gs idxs)).mp hv
  refine ⟨jsMax ((charsAt gs idxs).map (fun c => c.crossingTime)),
    (if ((charsAt gs idxs).headD default).side = Side.left then Side.right
      else Side.left),
    completeCrossing gs idxs ((charsAt gs idxs).headD default).side
      (if ((charsAt gs idxs).headD default).side = Side.left then Side.right
        else Side.left)
      (jsMax ((charsAt gs idxs).map (fun c => c.crossingTime))),
    executeCrossing_valid gs idxs hv, ?_, ?_, ?_, rfl, ?_, ?_, ?_, ?_⟩
  · have hmapne : (charsAt gs idxs).map (fun c => c.crossingTime) ≠ [] := by
      simpa using hne
    rcases List.mem_map.mp (jsMax_mem _ hmapne) with ⟨c, hc, hct⟩
    exact ⟨c, hc, hct⟩
  · intro c hc
    exact jsMax_le _ _ (List.mem_map_of_mem _ hc)
  · intro c hc
    exact hsame c hc _ (headD_mem _ default hne)
  · intro i hi
    rw [completeCrossing_characters,
      updateChars_getD gs.characters idxs _ default i (hb i hi), if_pos hi]
    exact ⟨rfl, rfl⟩
  · exact completeCrossing_lanternSide gs idxs _ _ _
  · exact completeCrossing_timeRemaining gs idxs _ _ _
  · exact completeCrossing_moveHistory gs idxs _ _ _

/-- C3 witness: the fastest character crosses alone from the fresh state. -/
theorem claim_successful_crossing_effects_witness :
    (validateMove initialState (charsAt initialState [0])).1 = true ∧
    (∀ i ∈ [0], i < initialState.characters.length) ∧
    (∃ t ts gs2,
      executeCrossing initialState [0] =
        (CrossingResult.success t ((charsAt initialState [0]).headD default).side ts
          gs2.gameStatus, gs2) ∧
      (∃ c ∈ charsAt initialState [0], c.crossingTime = t) ∧
      (∀ c ∈ charsAt initialState [0], c.crossingTime ≤ t) ∧
      (∀ c ∈ charsAt initialState [0],
        c.side = ((charsAt initialState [0]).headD default).side) ∧
      ts = (if ((charsAt initialState [0]).headD default).side = Side.left then
        Side.right else Side.left) ∧
      (∀ i ∈ [0], ((gs2.characters.getD i default).side = ts ∧
        (gs2.characters.getD i default).selected = false)) ∧
      gs2.lanternSide = ts ∧
      gs2.timeRemaining = max (initialState.timeRemaining - t) 0 ∧
      (∃ r, gs2.moveHistory = initialState.moveHistory ++ [r])) :=
  ⟨by decide, by decide,
    claim_successful_crossing_effects initialState [0] (by decide) (by decide)⟩

/-- C4: `validateMove` is valid exactly when its violation list is empty;
an empty selection short-circuits to the single no-characters reason, and a
non-empty selection collects, in this fixed order, the capacity reason, the
same-side reason, the lantern mismatch reason and the playing-state reason
— every violated rule contributes its reason. -/
theorem claim_validateMove_order (gs : GameState) (chars : List Character) :
    ((validateMove gs chars).1 = true ↔ (validateMove gs chars).2 = []) ∧
    (chars = [] → (validateMove gs chars).2 = [msgNoCharacters]) ∧
    (chars ≠ [] → (validateMove gs chars).2 =
      (if chars.length > 2 then [msgMaxTwo] else [])
        ++ (if ∃ a ∈ chars, ∃ b ∈ chars, a.side ≠ b.side then [msgSameSide] else [])
        ++ (if gs.lanternSide = (chars.headD default).side then []
          else [msgLanternMismatch gs.lanternSide (chars.headD default).side])
        ++ (if gs.gameStatus ≠ GameStatus.playing then [msgNotPlaying] else [])) := by
  refine ⟨validateMove_fst_iff_snd gs chars, ?_, ?_⟩
  · rintro rfl
    rfl
  · intro hne
    rw [validateMove_snd gs chars hne]
    have hiff : ((jsSet (chars.map (fun c => c.side))).length > 1) ↔
        (∃ a ∈ chars, ∃ b ∈ chars, a.side ≠ b.side) := by
      rw [jsSet_length_gt_one_iff]
      constructor
      · rintro ⟨x, hx, y, hy, hxy⟩
        rcases List.mem_map.mp hx with ⟨a, ha, rfl⟩
        rcases List.mem_map.mp hy with ⟨b, hb, rfl⟩
        exact ⟨a, ha, b, hb, hxy⟩
      · rintro ⟨a, ha, b, hb, hab⟩
        exact ⟨a.side, List.mem_map_of_mem _ ha, b.side, List.mem_map_of_mem _ hb, hab⟩
    rw [if_congr hiff rfl rfl]

/-- C4 witness: a terminal state with a 3-character selection exercises the
capacity rule together with the playing-state rule. -/
theorem claim_validateMove_order_witness :
    ((validateMove wonState (charsAt initialState [0, 1, 2])).1 = true ↔
      (validateMove wonState (charsAt initialState [0, 1, 2])).2 = []) ∧
    (charsAt initialState [0, 1, 2] = [] →
      (validateMove wonState (charsAt initialState [0, 1, 2])).2 = [msgNoCharacters]) ∧
    (charsAt initialState [0, 1, 2] ≠ [] →
      (validateMove wonState (charsAt initialState [0, 1, 2])).2 =
      (if (charsAt initialState [0, 1, 2]).length > 2 then [msgMaxTwo] else [])
        ++ (if ∃ a ∈ charsAt initialState [0, 1, 2], ∃ b ∈ charsAt initialState [0, 1, 2],
              a.side ≠ b.side then [msgSameSide] else [])
        ++ (if wonState.lanternSide =
              ((charsAt initialState [0, 1, 2]).headD default).side then []
          else [msgLanternMismatch wonState.lanternSide
            ((charsAt initialState [0, 1, 2]).headD default).side])
        ++ (if wonState.gameStatus ≠ GameStatus.playing then [msgNotPlaying] else [])) :=
  claim_validateMove_order wonState (charsAt initialState [0, 1, 2])

/-- C5: starting from a non-negative timer (the floor invariant the spec
states for `timeRemaining`), `updateTimer` with a non-negative `timeUsed`
never increases the timer and never leaves it negative: the new value is
the old value minus `timeUsed` when that difference is positive, and
exactly 0 otherwise, in which case the status is set to `lost` — unless
the victory check that follows overrides it to `won`. -/
theorem claim_updateTimer_floor (gs : GameState) (t : ℚ) (ht : 0 ≤ t)
    (h0 : 0 ≤ gs.timeRemaining) :
    (gs.updateTimer t).timeRemaining ≤ gs.timeRemaining ∧
    0 ≤ (gs.updateTimer t).timeRemaining ∧
    (0 < gs.timeRemaining - t →
      (gs.updateTimer t).timeRemaining = gs.timeRemaining - t) ∧
    (gs.timeRemaining - t ≤ 0 →
      (gs.updateTimer t).timeRemaining = 0 ∧
      (gs.updateTimer t).gameStatus =
        (if (gs.getCharactersOnSide Side.right).length = gs.characters.length then
          GameStatus.won else GameStatus.lost)) := by
  refine ⟨?_, ?_, ?_, ?_⟩
  · rw [updateTimer_timeRemaining]
    exact max_le (by linarith) h0
  · rw [updateTimer_timeRemaining]
    exact le_max_right _ _
  · intro h
    rw [updateTimer_timeRemaining]
    exact max_eq_left h.le
  · intro h
    refine ⟨by rw [updateTimer_timeRemaining]; exact max_eq_right h, ?_⟩
    rw [updateTimer_gameStatus]
    by_cases hwin : (gs.getCharactersOnSide Side.right).length = gs.characters.length
    · rw [if_pos hwin, if_pos hwin]
    · rw [if_neg hwin, if_pos h, if_neg hwin]

/-- C5 witness: a 20-minute crossing from the fresh state exhausts the
timer, clamps it to 0 and loses the game. -/
theorem claim_updateTimer_floor_witness :
    (0:ℚ) ≤ 20 ∧ (0:ℚ) ≤ initialState.timeRemaining ∧
    ((initialState.updateTimer 20).timeRemaining ≤ initialState.timeRemaining ∧
    0 ≤ (initialState.updateTimer 20).timeRemaining ∧
    (0 < initialState.timeRemaining - 20 →
      (initialState.updateTimer 20).timeRemaining = initialState.timeRemaining - 20) ∧
    (initialState.timeRemaining - 20 ≤ 0 →
      (initialState.updateTimer 20).timeRemaining = 0 ∧
      (initialState.updateTimer 20).gameStatus =
        (if (initialState.getCharactersOnSide Side.right).length =
            initialState.characters.length then
          GameStatus.won else GameStatus.lost))) :=
  ⟨by norm_num, by decide, claim_updateTimer_floor initialState 20 (by norm_num) (by decide)⟩

/-- C6 counterexample: with `gameStatus = 'won'`, an empty selection is
rejected, but its violation list is only the no-characters reason: it does
not contain the playing-state reason, so not every rejected call in a
terminal state reports that reason. -/
theorem claim_terminal_states_cex :
    wonState.gameStatus = GameStatus.won ∧
    executeCrossing wonState [] = (CrossingResult.failure [msgNoCharacters], wonState) ∧
    msgNotPlaying ∉ [msgNoCharacters] := by
  exact ⟨rfl, by decide, by decide⟩

/-- C6 (amended): `playing` is the sole initial state; in a state whose
status is not `playing`, every `executeCrossing` call is rejected and
returns the state unchanged, and for every non-empty selection the
violation list contains the playing-state reason (an empty selection is
rejected with only the no-characters reason); hence no sequence of
`executeCrossing` calls ever leaves `won` or `lost` or mutates anything. -/
theorem claim_terminal_states_absorb :
    initialState.gameStatus = GameStatus.playing ∧
    ∀ gs : GameState, gs.gameStatus ≠ GameStatus.playing →
      (∀ idxs : List Nat, ∃ errs,
        executeCrossing gs idxs = (CrossingResult.failure errs, gs) ∧
        (idxs ≠ [] → msgNotPlaying ∈ errs)) ∧
      (∀ moves : List (List Nat), execSeq gs moves = gs) := by
  refine ⟨rfl, ?_⟩
  intro gs hst
  have hstep : ∀ idxs : List Nat, ∃ errs,
      executeCrossing gs idxs = (CrossingResult.failure errs, gs) ∧
      (idxs ≠ [] → msgNotPlaying ∈ errs) := by
    intro idxs
    have hfalse : (validateMove gs (charsAt gs idxs)).1 = false := by
      cases hbv : (validateMove gs (charsAt gs idxs)).1 with
      | false => rfl
      | true =>
          exact absurd ((validateMove_valid_iff gs (charsAt gs idxs)).mp hbv).2.2.2.2 hst
    refine ⟨(validateMove gs (charsAt gs idxs)).2,
      executeCrossing_invalid gs idxs hfalse, ?_⟩
    intro hne
    have hcne : charsAt gs idxs ≠ [] := (charsAt_ne_nil gs idxs).mpr hne
    rw [validateMove_snd gs (charsAt gs idxs) hcne]
    apply List.mem_append_right
    rw [if_pos hst]
    exact List.mem_singleton.mpr rfl
  refine ⟨hstep, ?_⟩
  intro moves
  induction moves with
  | nil => rfl
  | cons m ms ih =>
      obtain ⟨errs, heq, _⟩ := hstep m
      have hsnd : (executeCrossing gs m).2 = gs := by rw [heq]
      rw [execSeq_cons, hsnd, ih]

/-- C6 witness for the amended claim: the won state absorbs every call. -/
theorem claim_terminal_states_absorb_witness :
    wonState.gameStatus ≠ GameStatus.playing ∧
    ((∀ idxs : List Nat, ∃ errs,
        executeCrossing wonState idxs = (CrossingResult.failure errs, wonState) ∧
        (idxs ≠ [] → msgNotPlaying ∈ errs)) ∧
      (∀ moves : List (List Nat), execSeq wonState moves = wonState)) :=
  ⟨by decide, claim_terminal_states_absorb.2 wonState (by decide)⟩

/-- C7: `getAvailableMoves` returns, for `n` characters on the lantern's
side, exactly `n + n·(n-1)/2` candidate moves — all of whose members stand
on the lantern's side, with every singleton present — and exactly 10 moves
on the initial state.  (The enumeration is a pure query: in this embedding
it takes the state and returns only the move list.) -/
theorem claim_available_moves_count (gs : GameState) :
    ((getAvailableMoves initialState).length = 10) ∧
    (getAvailableMoves gs).length =
      (gs.getCharactersOnSide gs.lanternSide).length +
        (gs.getCharactersOnSide gs.lanternSide).length *
          ((gs.getCharactersOnSide gs.lanternSide).length - 1) / 2 ∧
    (∀ m ∈ getAvailableMoves gs, ∀ c ∈ m, c.side = gs.lanternSide) ∧
    (∀ c ∈ gs.getCharactersOnSide gs.lanternSide, [c] ∈ getAvailableMoves gs) := by
  refine ⟨by decide, ?_, ?_, ?_⟩
  · rw [getAvailableMoves_eq]
    by_cases h : (gs.getCharactersOnSide gs.lanternSide).length > 0
    · rw [if_pos h, movesFrom_length]
    · rw [if_neg h]
      have h0 : (gs.getCharactersOnSide gs.lanternSide).length = 0 := by omega
      simp [h0]
  · intro m hm c hc
    rw [getAvailableMoves_eq] at hm
    by_cases h : (gs.getCharactersOnSide gs.lanternSide).length > 0
    · rw [if_pos h] at hm
      exact mem_getCharactersOnSide gs _ c (mem_movesFrom _ m hm c hc)
    · rw [if_neg h] at hm
      simp at hm
  · intro c hc
    rw [getAvailableMoves_eq]
    have h : (gs.getCharactersOnSide gs.lanternSide).length > 0 := by
      cases hl : gs.getCharactersOnSide gs.lanternSide with
      | nil => rw [hl] at hc; simp at hc
      | cons a as => simp
    rw [if_pos h]
    exact singleton_mem_movesFrom _ c hc

/-- C7 witness: the counting identity on the fresh state, where the four
characters and the lantern are all on the left. -/
theorem claim_available_moves_count_witness :
    ((getAvailableMoves initialState).length = 10) ∧
    (getAvailableMoves initialState).length =
      (initialState.getCharactersOnSide initialState.lanternSide).length +
        (initialState.getCharactersOnSide initialState.lanternSide).length *
          ((initialState.getCharactersOnSide initialState.lanternSide).length - 1) / 2 ∧
    (∀ m ∈ getAvailableMoves initialState, ∀ c ∈ m, c.side = initialState.lanternSide) ∧
    (∀ c ∈ initialState.getCharactersOnSide initialState.lanternSide,
      [c] ∈ getAvailableMoves initialState) :=
  claim_available_moves_count initialState

/-- C8: `reset()` restores the initial scalar state (timer 17, lantern
left, playing, empty history) and rewrites the existing character list in
place: same length, and the entry at every index keeps its identity (name,
crossing time, sprite key) with only `side` and `selected` reset; after any
reachable sequence of crossings a single `reset()` yields exactly the
initial state. -/
theorem claim_reset_round_trip :
    (∀ gs : GameState,
      gs.reset.timeRemaining = 17 ∧ gs.reset.lanternSide = Side.left ∧
      gs.reset.gameStatus = GameStatus.playing ∧ gs.reset.moveHistory = [] ∧
      gs.reset.characters.length = gs.characters.length ∧
      ∀ i, i < gs.characters.length →
        gs.reset.characters.getD i default =
          { gs.characters.getD i default with side := Side.left, selected := false }) ∧
    (∀ gs : GameState, Reachable gs → gs.reset = initialState) := by
  constructor
  · intro gs
    refine ⟨rfl, rfl, rfl, rfl, by simp [GameState.reset], ?_⟩
    intro i hi
    simp only [GameState.reset]
    exact getD_map _ default gs.characters i hi
  · exact reachable_reset

/-- C8 witness: reset after one crossing restores the initial state. -/
theorem claim_reset_round_trip_witness :
    ((executeCrossing initialState [0]).2).reset = initialState :=
  claim_reset_round_trip.2 (executeCrossing initialState [0]).2
    (Reachable.cross initialState [0] Reachable.init (by decide))

/-- C9: in every state reachable from the fresh state by `executeCrossing`
calls and resets, some character stands on the lantern's side — the lantern
moves with the crossing party, so it is never stranded alone. -/
theorem claim_lantern_never_stranded (gs : GameState) (h : Reachable gs) :
    ∃ c ∈ gs.characters, c.side = gs.lanternSide :=
  (reachable_lantern_inv gs h).2

/-- C9 witness: the fresh state. -/
theorem claim_lantern_never_stranded_witness :
    ∃ c ∈ initialState.characters, c.side = initialState.lanternSide :=
  claim_lantern_never_stranded initialState Reachable.init

/-- C10: the accompaniment branch of `validateLanternMovement` is dead
code: its message never occurs in the returned errors, and for a non-empty
selection the only lantern reason ever emitted is the side-mismatch
message. -/
theorem claim_accompany_branch_unreachable (gs : GameState) (chars : List Character) :
    msgAccompany ∉ (validateLanternMovement gs chars).2 ∧
    (chars ≠ [] → ∀ e ∈ (validateLanternMovement gs chars).2,
      e = msgLanternMismatch gs.lanternSide (chars.headD default).side) := by
  by_cases hne : chars = []
  · subst hne
    constructor
    · show msgAccompany ∉ [msgNoLanternCarrier]
      decide
    · intro h
      exact absurd rfl h
  · have hsnd := validateLanternMovement_snd gs chars hne
    constructor
    · rw [hsnd]
      by_cases hs : gs.lanternSide = (chars.headD default).side
      · rw [if_pos hs]
        simp
      · rw [if_neg hs]
        simp only [List.mem_singleton]
        exact msgAccompany_ne_mismatch _ _
    · intro _ e he
      rw [hsnd] at he
      by_cases hs : gs.lanternSide = (chars.headD default).side
      · rw [if_pos hs] at he
        simp at he
      · rw [if_neg hs] at he
        exact List.mem_singleton.mp he

/-- C10 witness: a selection standing opposite the lantern receives only
the mismatch message. -/
theorem claim_accompany_branch_unreachable_witness :
    msgAccompany ∉ (validateLanternMovement scenarioF (charsAt scenarioF [0])).2 ∧
    (charsAt scenarioF [0] ≠ [] →
      ∀ e ∈ (validateLanternMovement scenarioF (charsAt scenarioF [0])).2,
        e = msgLanternMismatch scenarioF.lanternSide
          ((charsAt scenarioF [0]).headD default).side) :=
  claim_accompany_branch_unreachable scenarioF (charsAt scenarioF [0])

end BridgeGame
